import Mathlib

/-
Verification of the adaptive spatial clustering engine of the vrishti
repository (src/components/MapView.tsx).

The embedding models the function clusterNearbyMarkers
(MapView.tsx lines 796-853) together with the render-policy glue
(shouldUseCluster, line 792, and locationsToRender, lines 988-1005).
JavaScript floating-point numbers are modelled by exact rationals;
JavaScript object iteration (Object.values over string keys) preserves
key-insertion order, which the bucket list below reproduces exactly.
-/

namespace Vrishti

/-- Input record, from the Location interface of MapView.tsx (lines 55-67).
The optional output-only fields clusterSize, clusterPoints and description
of that interface are carried by the Cluster variant of RenderItem below,
which is how the code populates them (lines 836-848). -/
structure Location where
  id : String
  name : String
  lat : ℚ
  lng : ℚ
  category : String
  reflectivity : Option ℚ
  rainfall_rate : Option ℚ
  altitude : Option ℚ
  deriving DecidableEq, Inhabited

/-- The synthetic cluster record built at MapView.tsx lines 836-848.
Field for field the object literal of the source, except the display-only
description string (line 839), which is toFixed-formatted float text and
carries no information used anywhere in the claims. -/
structure ClusterOut where
  id : String
  name : String
  lat : ℚ
  lng : ℚ
  category : String
  reflectivity : ℚ
  rainfall_rate : ℚ
  altitude : ℚ
  clusterSize : ℕ
  clusterPoints : List Location
  deriving DecidableEq

/-- An element of the list returned by clusterNearbyMarkers: either an input
point passed through unchanged, or a synthetic cluster record.  The render
layer distinguishes the two by the presence of clusterSize (line 1183). -/
inductive RenderItem where
  | individual (point : Location)
  | cluster (info : ClusterOut)
  deriving DecidableEq

/-- Math.max over a nonempty list of rationals (Math.max(...lats), line 802).
The [] case is never reached from the code paths modelled here with a
nonempty input; its value is irrelevant because on empty input the grid
size is computed but never consumed (no point is ever bucketed). -/
def listMax : List ℚ → ℚ
  | [] => 0
  | x :: xs => xs.foldl max x

/-- Math.min over a nonempty list of rationals (Math.min(...lats), line 802). -/
def listMin : List ℚ → ℚ
  | [] => 0
  | x :: xs => xs.foldl min x

/-- The grid cell size computed at MapView.tsx lines 799-808:
latRange and lngRange are the coordinate spreads, baseGridSize divides the
larger spread by 50 at zoom 12 and above and by 30 below, zoomFactor is
2 raised to max(0, zoomLevel - 8), and the final size is floored at 0.0005. -/
def gridSizeOf (locations : List Location) (zoomLevel : ℤ) : ℚ :=
  let lats := locations.map Location.lat
  let lngs := locations.map Location.lng
  let latRange := listMax lats - listMin lats
  let lngRange := listMax lngs - listMin lngs
  let baseGridSize := max latRange lngRange / (if 12 ≤ zoomLevel then (50 : ℚ) else 30)
  let zoomFactor : ℚ := 2 ^ (max 0 (zoomLevel - 8)).toNat
  max 0.0005 (baseGridSize / zoomFactor)

/-- The grid key of one point (MapView.tsx lines 815-817): the pair of
floors of lat and lng divided by the cell size.  The code renders the pair
as the string gridX_gridY, an injective image of the pair since the
components print without underscores; the pair itself is used here. -/
def cellKey (gridSize : ℚ) (loc : Location) : ℤ × ℤ :=
  (⌊loc.lat / gridSize⌋, ⌊loc.lng / gridSize⌋)

/-- One step of bucket construction (MapView.tsx lines 819-820): append the
point to the bucket of its key if that key exists, otherwise add a new
bucket at the end — exactly the JavaScript object update
clusters[key].push(location), with key-insertion order kept. -/
def insertBucket (key : ℤ × ℤ) (point : Location) :
    List ((ℤ × ℤ) × List Location) → List ((ℤ × ℤ) × List Location)
  | [] => [(key, [point])]
  | (k, bucket) :: rest =>
    if k = key then (k, bucket ++ [point]) :: rest
    else (k, bucket) :: insertBucket key point rest

/-- The clusters object after the forEach loop of MapView.tsx lines 813-821,
as an association list in key-insertion order (the order Object.values
iterates in). -/
def buildClusters (gridSize : ℚ) (locations : List Location) :
    List ((ℤ × ℤ) × List Location) :=
  locations.foldl (fun acc loc => insertBucket (cellKey gridSize loc) loc acc) []

/-- JavaScript loc.reflectivity || 0 : a missing measurement contributes 0
(0 itself is unchanged by the idiom). -/
def optOrZero (v : Option ℚ) : ℚ := v.getD 0

/-- The per-cell body of the Object.values(clusters).map at MapView.tsx
lines 823-849, with the depth-1 .flat() of line 849 already applied to the
three result shapes (bare point, array of points, cluster object):
a 1-point cell and, at zoom 12 and above, a cell of at most 3 points pass
the points through individually; any other cell becomes one cluster record
whose statistics are the reduce-based averages of lines 830-834. -/
def aggregateCell (zoomLevel : ℤ) (cluster : List Location) : List RenderItem :=
  if cluster.length = 1 ∨ (12 ≤ zoomLevel ∧ cluster.length ≤ 3) then
    if cluster.length = 1 then [RenderItem.individual cluster.headI]
    else cluster.map RenderItem.individual
  else
    let n : ℚ := cluster.length
    let avgLat := cluster.foldl (fun s loc => s + loc.lat) 0 / n
    let avgLng := cluster.foldl (fun s loc => s + loc.lng) 0 / n
    let avgReflectivity := cluster.foldl (fun s loc => s + optOrZero loc.reflectivity) 0 / n
    let avgRainfall := cluster.foldl (fun s loc => s + optOrZero loc.rainfall_rate) 0 / n
    let avgAltitude := cluster.foldl (fun s loc => s + optOrZero loc.altitude) 0 / n
    [RenderItem.cluster
      { id := "cluster_" ++ cluster.headI.id ++ "_" ++ toString cluster.length
        name := "Cluster (" ++ toString cluster.length ++ " points)"
        lat := avgLat
        lng := avgLng
        category := "cluster"
        reflectivity := avgReflectivity
        rainfall_rate := avgRainfall
        altitude := avgAltitude
        clusterSize := cluster.length
        clusterPoints := cluster }]

/-- clusterNearbyMarkers (MapView.tsx lines 796-853): compute the grid size,
bucket every point by its cell key, then map every bucket through the
per-cell aggregation and flatten. -/
def clusterNearbyMarkers (locations : List Location) (zoomLevel : ℤ) : List RenderItem :=
  let gridSize := gridSizeOf locations zoomLevel
  let clusters := buildClusters gridSize locations
  (clusters.map (fun cell => aggregateCell zoomLevel cell.2)).flatten

/-- shouldUseCluster (MapView.tsx line 792): cluster only above 100 points. -/
def shouldUseCluster (filteredLocations : List Location) : Bool :=
  filteredLocations.length > 100

/-- locationsToRender (MapView.tsx lines 988-1005): when shouldUseCluster
holds and the count exceeds 100 (the code tests the same condition twice),
run the clustering pipeline; otherwise render the input list itself, every
point individual. -/
def locationsToRender (filteredLocations : List Location) (mapZoom : ℤ) : List RenderItem :=
  if shouldUseCluster filteredLocations ∧ 100 < filteredLocations.length then
    clusterNearbyMarkers filteredLocations mapZoom
  else
    filteredLocations.map RenderItem.individual

/-- The point ids recoverable from one render item: the id of an individual
point, or the ids of the retained member list of a cluster. -/
def memberIds : RenderItem → List String
  | RenderItem.individual point => [point.id]
  | RenderItem.cluster info => info.clusterPoints.map Location.id

/-- All points stored across the buckets of a partition, in order. -/
def flattenBuckets (buckets : List ((ℤ × ℤ) × List Location)) : List Location :=
  buckets.flatMap Prod.snd

/-- The cell size exactly as the words of the spec (section 4.1) state it,
as a function of the two coordinate spreads: the spec-side formula to be
compared against gridSizeOf, which is read off the source. -/
def specGridSize (latSpread lngSpread : ℚ) (zoomLevel : ℤ) : ℚ :=
  let divisor : ℚ := if 12 ≤ zoomLevel then 50 else 30
  let baseGridSize := max latSpread lngSpread / divisor
  let zoomFactor : ℚ := 2 ^ (max 0 (zoomLevel - 8)).toNat
  max 0.0005 (baseGridSize / zoomFactor)

/-- A left fold that adds f of every element, started at 0, is the sum of
the mapped list: the reduce idiom of MapView.tsx lines 830-834 is the
arithmetic mean numerator. -/
lemma foldl_add_eq_sum (f : Location → ℚ) (l : List Location) :
    l.foldl (fun s loc => s + f loc) 0 = (l.map f).sum := by
  rw [List.sum_eq_foldl, List.foldl_map]

/-- Inserting one point into the bucket list permutes to consing the point
onto the flattened contents. -/
lemma flattenBuckets_insertBucket (key : ℤ × ℤ) (point : Location)
    (buckets : List ((ℤ × ℤ) × List Location)) :
    (flattenBuckets (insertBucket key point buckets)).Perm
      (point :: flattenBuckets buckets) := by
  induction buckets with
  | nil => simp [flattenBuckets, insertBucket]
  | cons kv rest ih =>
    obtain ⟨k, bucket⟩ := kv
    by_cases h : k = key
    · simp only [insertBucket, if_pos h, flattenBuckets, List.flatMap_cons,
        List.append_assoc, List.singleton_append]
      exact List.perm_middle
    · simp only [insertBucket, if_neg h, flattenBuckets, List.flatMap_cons]
      refine ((ih.append_left bucket).trans ?_)
      exact List.perm_middle

/-- Folding a list of points into an accumulator bucket list permutes to
appending the points to the flattened accumulator. -/
lemma flattenBuckets_foldl (gridSize : ℚ) (locations : List Location)
    (acc : List ((ℤ × ℤ) × List Location)) :
    (flattenBuckets (locations.foldl
        (fun a loc => insertBucket (cellKey gridSize loc) loc a) acc)).Perm
      (flattenBuckets acc ++ locations) := by
  induction locations generalizing acc with
  | nil => simp
  | cons p rest ih =>
    simp only [List.foldl_cons]
    refine (ih _).trans ?_
    refine ((flattenBuckets_insertBucket _ _ _).append_right rest).trans ?_
    simp only [List.cons_append]
    exact List.perm_middle.symm

/-- The bucket contents of the grid partition are a permutation of the
input point list: no point is dropped or duplicated by partitioning. -/
lemma flattenBuckets_buildClusters (gridSize : ℚ) (locations : List Location) :
    (flattenBuckets (buildClusters gridSize locations)).Perm locations := by
  have h := flattenBuckets_foldl gridSize locations []
  simpa [flattenBuckets] using h

/-- Insertion never creates an empty bucket. -/
lemma insertBucket_ne_nil (key : ℤ × ℤ) (point : Location)
    (buckets : List ((ℤ × ℤ) × List Location))
    (h : ∀ kv ∈ buckets, kv.2 ≠ []) :
    ∀ kv ∈ insertBucket key point buckets, kv.2 ≠ [] := by
  induction buckets with
  | nil =>
    intro kv hkv
    simp only [insertBucket, List.mem_singleton] at hkv
    subst hkv
    simp
  | cons hd rest ih =>
    obtain ⟨k, bucket⟩ := hd
    intro kv hkv
    by_cases hk : k = key
    · simp only [insertBucket, if_pos hk, List.mem_cons] at hkv
      rcases hkv with rfl | hkv
      · simp
      · exact h kv (List.mem_cons_of_mem _ hkv)
    · simp only [insertBucket, if_neg hk, List.mem_cons] at hkv
      rcases hkv with rfl | hkv
      · exact h (k, bucket) (List.mem_cons_self _ _)
      · exact ih (fun kv h2 => h kv (List.mem_cons_of_mem _ h2)) kv hkv

/-- Every bucket of the grid partition holds at least one point. -/
lemma buildClusters_ne_nil (gridSize : ℚ) (locations : List Location) :
    ∀ kv ∈ buildClusters gridSize locations, kv.2 ≠ [] := by
  suffices h : ∀ (acc : List ((ℤ × ℤ) × List Location)),
      (∀ kv ∈ acc, kv.2 ≠ []) →
      ∀ kv ∈ locations.foldl
        (fun a loc => insertBucket (cellKey gridSize loc) loc a) acc, kv.2 ≠ [] by
    exact h [] (by simp)
  induction locations with
  | nil => intro acc hacc; simpa using hacc
  | cons p rest ih =>
    intro acc hacc
    simp only [List.foldl_cons]
    exact ih _ (insertBucket_ne_nil _ _ _ hacc)

/-- Member ids of a list of pass-through individuals are the point ids. -/
lemma flatMap_memberIds_map_individual (l : List Location) :
    (l.map RenderItem.individual).flatMap memberIds = l.map Location.id := by
  induction l with
  | nil => rfl
  | cons p rest ih => simp [memberIds, ih]

/-- The ids recoverable from one aggregated cell are exactly the ids of the
points of that cell, whichever branch the per-cell policy takes. -/
lemma aggregateCell_flatMap_memberIds (zoomLevel : ℤ) (cluster : List Location) :
    (aggregateCell zoomLevel cluster).flatMap memberIds = cluster.map Location.id := by
  unfold aggregateCell
  split_ifs with hcond hone
  · obtain ⟨a, rfl⟩ := List.length_eq_one.mp hone
    simp [memberIds]
  · exact flatMap_memberIds_map_individual cluster
  · simp [memberIds]

/-- A cluster record emitted for a cell carries the full cell as its member
list, the cell size as its count, the reduce-based averages as statistics,
and witnesses that neither individual-emitting branch applied. -/
lemma mem_aggregateCell_cluster (zoomLevel : ℤ) (cluster : List Location)
    (c : ClusterOut) (hc : RenderItem.cluster c ∈ aggregateCell zoomLevel cluster) :
    c.lat = (cluster.map Location.lat).sum / cluster.length ∧
    c.lng = (cluster.map Location.lng).sum / cluster.length ∧
    c.reflectivity = (cluster.map fun p => optOrZero p.reflectivity).sum / cluster.length ∧
    c.rainfall_rate = (cluster.map fun p => optOrZero p.rainfall_rate).sum / cluster.length ∧
    c.altitude = (cluster.map fun p => optOrZero p.altitude).sum / cluster.length ∧
    c.clusterSize = cluster.length ∧
    c.clusterPoints = cluster ∧
    cluster.length ≠ 1 ∧
    ¬(12 ≤ zoomLevel ∧ cluster.length ≤ 3) := by
  unfold aggregateCell at hc
  split_ifs at hc with hcond hone
  · simp at hc
  · simp [List.mem_map] at hc
  · rw [not_or] at hcond
    simp only [List.mem_singleton] at hc
    injection hc with hc
    subst hc
    refine ⟨?_, ?_, ?_, ?_, ?_, rfl, rfl, hcond.1, hcond.2⟩ <;>
      simp [foldl_add_eq_sum]

/-- The length of the per-cell output never exceeds the cell size, and is
strictly smaller exactly when the cell emits a cluster record. -/
lemma aggregateCell_length (zoomLevel : ℤ) (cluster : List Location)
    (h : cluster ≠ []) :
    (aggregateCell zoomLevel cluster).length ≤ cluster.length ∧
      ((aggregateCell zoomLevel cluster).length < cluster.length ↔
        ∃ c, RenderItem.cluster c ∈ aggregateCell zoomLevel cluster) := by
  have hpos : 0 < cluster.length := List.length_pos.mpr h
  unfold aggregateCell
  split_ifs with hcond hone
  · simp [hone]
  · simp
  · rw [not_or] at hcond
    obtain ⟨hne1, hover⟩ := hcond
    have h2 : 2 ≤ cluster.length := by omega
    simp only [List.length_singleton]
    refine ⟨by omega, ?_⟩
    constructor
    · intro _
      exact ⟨_, List.mem_singleton_self _⟩
    · intro _
      omega

/-- Per-bucket aggregation followed by flattening recovers exactly the ids
stored across the buckets, in order. -/
lemma flatten_aggregate_memberIds (zoomLevel : ℤ)
    (buckets : List ((ℤ × ℤ) × List Location)) :
    ((buckets.map (fun cell => aggregateCell zoomLevel cell.2)).flatten.flatMap memberIds)
      = (flattenBuckets buckets).map Location.id := by
  induction buckets with
  | nil => rfl
  | cons kv rest ih =>
    simp only [List.map_cons, List.flatten_cons, List.flatMap_append, flattenBuckets,
      List.flatMap_cons, List.map_append, aggregateCell_flatMap_memberIds]
    rw [ih]
    rfl

/-- Length accounting across every bucket: the aggregated output is never
longer than the bucket contents, and is strictly shorter exactly when some
bucket emits a cluster record. -/
lemma flatten_aggregate_length (zoomLevel : ℤ)
    (buckets : List ((ℤ × ℤ) × List Location))
    (hne : ∀ kv ∈ buckets, kv.2 ≠ []) :
    ((buckets.map (fun cell => aggregateCell zoomLevel cell.2)).flatten.length
        ≤ (flattenBuckets buckets).length) ∧
      ((buckets.map (fun cell => aggregateCell zoomLevel cell.2)).flatten.length
          < (flattenBuckets buckets).length ↔
        ∃ c, RenderItem.cluster c ∈
          (buckets.map (fun cell => aggregateCell zoomLevel cell.2)).flatten) := by
  induction buckets with
  | nil => simp [flattenBuckets]
  | cons kv rest ih =>
    have hkv := hne kv (List.mem_cons_self _ _)
    have hrest := ih (fun kv h => hne kv (List.mem_cons_of_mem _ h))
    have hcell := aggregateCell_length zoomLevel kv.2 hkv
    simp only [List.map_cons, List.flatten_cons, flattenBuckets, List.flatMap_cons,
      List.length_append] at *
    refine ⟨Nat.add_le_add hcell.1 hrest.1, ?_⟩
    constructor
    · intro hlt
      have hsplit : (aggregateCell zoomLevel kv.2).length < kv.2.length ∨
          (rest.map (fun cell => aggregateCell zoomLevel cell.2)).flatten.length
            < (rest.flatMap Prod.snd).length := by
        have := hcell.1
        have := hrest.1
        omega
      rcases hsplit with hl | hr
      · obtain ⟨c, hc⟩ := hcell.2.mp hl
        exact ⟨c, List.mem_append_left _ hc⟩
      · obtain ⟨c, hc⟩ := hrest.2.mp hr
        exact ⟨c, List.mem_append_right _ hc⟩
    · rintro ⟨c, hc⟩
      rcases List.mem_append.mp hc with h | h
      · have hl := hcell.2.mpr ⟨c, h⟩
        have := hrest.1
        omega
      · have hr := hrest.2.mpr ⟨c, h⟩
        have := hcell.1
        omega

/-- A cluster record in the full output comes from the aggregation of some
bucket of the partition. -/
lemma mem_clusterNearbyMarkers_elim (locations : List Location) (zoomLevel : ℤ)
    (x : RenderItem) (hx : x ∈ clusterNearbyMarkers locations zoomLevel) :
    ∃ kv ∈ buildClusters (gridSizeOf locations zoomLevel) locations,
      x ∈ aggregateCell zoomLevel kv.2 := by
  simp only [clusterNearbyMarkers, List.mem_flatten, List.mem_map] at hx
  obtain ⟨l, ⟨kv, hkv, rfl⟩, hxl⟩ := hx
  exact ⟨kv, hkv, hxl⟩

/-- A render item produced for some bucket of the partition appears in the
full output. -/
lemma mem_clusterNearbyMarkers_intro (locations : List Location) (zoomLevel : ℤ)
    (x : RenderItem) (kv : (ℤ × ℤ) × List Location)
    (hkv : kv ∈ buildClusters (gridSizeOf locations zoomLevel) locations)
    (hx : x ∈ aggregateCell zoomLevel kv.2) :
    x ∈ clusterNearbyMarkers locations zoomLevel := by
  simp only [clusterNearbyMarkers, List.mem_flatten, List.mem_map]
  exact ⟨aggregateCell zoomLevel kv.2, ⟨kv, hkv, rfl⟩, hx⟩

/-- A point stored in a bucket of the partition is one of the input points. -/
lemma mem_bucket_mem_locations (gridSize : ℚ) (locations : List Location)
    (kv : (ℤ × ℤ) × List Location) (hkv : kv ∈ buildClusters gridSize locations)
    (p : Location) (hp : p ∈ kv.2) : p ∈ locations := by
  have hmem : p ∈ flattenBuckets (buildClusters gridSize locations) := by
    simp only [flattenBuckets, List.mem_flatMap]
    exact ⟨kv, hkv, hp⟩
  exact (flattenBuckets_buildClusters gridSize locations).mem_iff.mp hmem

/-- A point with no measurements, for concrete witnesses. -/
def mkPoint (i : String) (lat lng : ℚ) : Location :=
  { id := i, name := i, lat := lat, lng := lng, category := "radar",
    reflectivity := none, rainfall_rate := none, altitude := none }

/-- A point with optional reflectivity and rainfall, for concrete witnesses. -/
def mkReading (i : String) (lat lng : ℚ) (refl rain : Option ℚ) : Location :=
  { id := i, name := i, lat := lat, lng := lng, category := "radar",
    reflectivity := refl, rainfall_rate := rain, altitude := none }

def q1 : Location := mkPoint "a" 0 0

def q2 : Location := mkPoint "b" 0 0

def q3 : Location := mkPoint "c" 0 0

def q4 : Location := mkPoint "d" 0 0

def q5 : Location := mkPoint "e" 0 0

def twoPoints : List Location := [q1, q2]

def fourPoints : List Location := [q1, q2, q3, q4]

def fivePoints : List Location := [q1, q2, q3, q4, q5]

/-- A list of 101 points, above the render-policy threshold. -/
def manyPoints : List Location :=
  (List.range 101).map fun (n : ℕ) => mkPoint (toString n) ((n : ℚ) / 100) 0

lemma manyPoints_length : manyPoints.length = 101 := by
  rw [manyPoints, List.length_map, List.length_range]

/-- The cluster record that four coincident points produce at zoom 5. -/
def fourOut : ClusterOut :=
  { id := "cluster_a_4", name := "Cluster (4 points)", lat := 0, lng := 0,
    category := "cluster", reflectivity := 0, rainfall_rate := 0, altitude := 0,
    clusterSize := 4, clusterPoints := fourPoints }

/-- The 3-point cell of concrete scenario C of the spec: rainfall rates 1,
2 and 3, reflectivities 7, 8 and missing. -/
def scenarioCell : List Location :=
  [mkReading "s1" 1 2 (some 7) (some 1),
   mkReading "s2" 2 3 (some 8) (some 2),
   mkReading "s3" 3 4 none (some 3)]

/-- The cluster record the scenario cell produces at zoom 5. -/
def scenarioOut : ClusterOut :=
  { id := "cluster_s1_3", name := "Cluster (3 points)", lat := 2, lng := 3,
    category := "cluster", reflectivity := 5, rainfall_rate := 2, altitude := 0,
    clusterSize := 3, clusterPoints := scenarioCell }

lemma aggregateCell_fourPoints :
    aggregateCell 5 fourPoints = [RenderItem.cluster fourOut] := by
  norm_num [aggregateCell, optOrZero, fourPoints, fourOut, q1, q2, q3, q4, mkPoint]
  decide

lemma clusterNearbyMarkers_fourPoints :
    clusterNearbyMarkers fourPoints 5 = [RenderItem.cluster fourOut] := by
  norm_num [clusterNearbyMarkers, gridSizeOf, buildClusters, insertBucket, cellKey,
    aggregateCell, listMax, listMin, optOrZero, fourPoints, fourOut, q1, q2, q3, q4,
    mkPoint, max_def]
  decide

lemma aggregateCell_scenarioCell :
    aggregateCell 5 scenarioCell = [RenderItem.cluster scenarioOut] := by
  norm_num [aggregateCell, optOrZero, scenarioCell, scenarioOut, mkReading]
  decide

lemma buildClusters_twoPoints :
    buildClusters (gridSizeOf twoPoints 12) twoPoints = [((0, 0), twoPoints)] := by
  norm_num [buildClusters, gridSizeOf, cellKey, insertBucket, listMax, listMin,
    twoPoints, q1, q2, mkPoint, max_def]

/-- A cell of 2 or 3 points at detail zoom passes its points through as
individuals. -/
lemma aggregateCell_override (zoomLevel : ℤ) (bucket : List Location)
    (hz : 12 ≤ zoomLevel) (hlen : bucket.length = 2 ∨ bucket.length = 3) :
    aggregateCell zoomLevel bucket = bucket.map RenderItem.individual := by
  have hne1 : bucket.length ≠ 1 := by omega
  unfold aggregateCell
  rw [if_pos (Or.inr ⟨hz, by omega⟩), if_neg hne1]

/-- C1: for every non-empty input point list and every zoom level, the
multiset of point ids obtained by flattening the member lists of all
emitted Cluster items together with the ids of all emitted Individual
items is a permutation of the input id list — no point is dropped or
duplicated by clusterNearbyMarkers. -/
theorem conservation (locations : List Location) (zoomLevel : ℤ)
    (hne : locations ≠ []) :
    ((clusterNearbyMarkers locations zoomLevel).flatMap memberIds).Perm
      (locations.map Location.id) := by
  have _ := hne
  simp only [clusterNearbyMarkers]
  rw [flatten_aggregate_memberIds]
  exact (flattenBuckets_buildClusters _ _).map Location.id

/-- Witness for C1 at the singleton input list. -/
theorem conservation_witness :
    ((clusterNearbyMarkers [q1] 5).flatMap memberIds).Perm ([q1].map Location.id) :=
  conservation [q1] 5 (by simp)

/-- C2: the cell size used to bucket points is never below 0.0005 for any
input and any zoom level, and on non-empty input it equals the spec-side
formula max(0.0005, baseGridSize / zoomFactor) with baseGridSize the
larger spread divided by 50 at zoom 12 and above and by 30 below, and
zoomFactor equal to 2 to the power max(0, zoomLevel - 8). -/
theorem grid_cell_size :
    (∀ (locations : List Location) (zoomLevel : ℤ),
      (0.0005 : ℚ) ≤ gridSizeOf locations zoomLevel) ∧
    (∀ (locations : List Location) (zoomLevel : ℤ), locations ≠ [] →
      gridSizeOf locations zoomLevel =
        specGridSize
          (listMax (locations.map Location.lat) - listMin (locations.map Location.lat))
          (listMax (locations.map Location.lng) - listMin (locations.map Location.lng))
          zoomLevel) := by
  constructor
  · intro locations zoomLevel
    exact le_max_left _ _
  · intro locations zoomLevel _
    rfl

/-- Witness for C2 at a singleton input and zoom 9. -/
theorem grid_cell_size_witness :
    (0.0005 : ℚ) ≤ gridSizeOf [q1] 9 ∧
      gridSizeOf [q1] 9 =
        specGridSize
          (listMax ([q1].map Location.lat) - listMin ([q1].map Location.lat))
          (listMax ([q1].map Location.lng) - listMin ([q1].map Location.lng)) 9 :=
  ⟨grid_cell_size.1 [q1] 9, grid_cell_size.2 [q1] 9 (by simp)⟩

/-- C3: at zoom 12 or above, a cell of exactly 2 or 3 points is emitted as
that many Individual items and never as a Cluster; each of its points
appears as an Individual item of the full output. -/
theorem zoom_override :
    (∀ (zoomLevel : ℤ) (bucket : List Location), 12 ≤ zoomLevel →
      (bucket.length = 2 ∨ bucket.length = 3) →
      aggregateCell zoomLevel bucket = bucket.map RenderItem.individual ∧
      ∀ c : ClusterOut, RenderItem.cluster c ∉ aggregateCell zoomLevel bucket) ∧
    (∀ (locations : List Location) (zoomLevel : ℤ) (kv : (ℤ × ℤ) × List Location),
      12 ≤ zoomLevel →
      kv ∈ buildClusters (gridSizeOf locations zoomLevel) locations →
      (kv.2.length = 2 ∨ kv.2.length = 3) →
      ∀ p ∈ kv.2, RenderItem.individual p ∈ clusterNearbyMarkers locations zoomLevel) := by
  constructor
  · intro zoomLevel bucket hz hlen
    rw [aggregateCell_override zoomLevel bucket hz hlen]
    refine ⟨rfl, ?_⟩
    intro c hc
    simp [List.mem_map] at hc
  · intro locations zoomLevel kv hz hkv hlen p hp
    refine mem_clusterNearbyMarkers_intro locations zoomLevel _ kv hkv ?_
    rw [aggregateCell_override zoomLevel kv.2 hz hlen]
    exact List.mem_map_of_mem _ hp

/-- Witness for C3 at a 2-point cell and zoom 12. -/
theorem zoom_override_witness :
    (aggregateCell 12 twoPoints = twoPoints.map RenderItem.individual ∧
      ∀ c : ClusterOut, RenderItem.cluster c ∉ aggregateCell 12 twoPoints) ∧
      RenderItem.individual q1 ∈ clusterNearbyMarkers twoPoints 12 :=
  ⟨zoom_override.1 12 twoPoints (by norm_num) (Or.inl (by simp [twoPoints])),
    zoom_override.2 twoPoints 12 ((0, 0), twoPoints) (by norm_num)
      (by rw [buildClusters_twoPoints]; exact List.mem_singleton_self _)
      (Or.inl (by simp [twoPoints])) q1 (by simp [twoPoints])⟩

/-- C4: a cell of exactly 1 point is emitted as a single Individual item
and never a Cluster, and every emitted Cluster item has clusterSize equal
to the size of the bucket of its cell, which is at least 2. -/
theorem threshold_respect :
    (∀ (zoomLevel : ℤ) (p : Location),
      aggregateCell zoomLevel [p] = [RenderItem.individual p]) ∧
    (∀ (zoomLevel : ℤ) (bucket : List Location) (c : ClusterOut), bucket ≠ [] →
      RenderItem.cluster c ∈ aggregateCell zoomLevel bucket →
      c.clusterSize = bucket.length ∧ 2 ≤ bucket.length) ∧
    (∀ (locations : List Location) (zoomLevel : ℤ) (c : ClusterOut),
      RenderItem.cluster c ∈ clusterNearbyMarkers locations zoomLevel →
      2 ≤ c.clusterSize) := by
  refine ⟨fun zoomLevel p => rfl, ?_, ?_⟩
  · intro zoomLevel bucket c hb hc
    have h := mem_aggregateCell_cluster zoomLevel bucket c hc
    have hpos : 0 < bucket.length := List.length_pos.mpr hb
    have hne1 : bucket.length ≠ 1 := h.2.2.2.2.2.2.2.1
    exact ⟨h.2.2.2.2.2.1, by omega⟩
  · intro locations zoomLevel c hc
    obtain ⟨kv, hkv, hmem⟩ := mem_clusterNearbyMarkers_elim locations zoomLevel _ hc
    have hb := buildClusters_ne_nil _ locations kv hkv
    have h := mem_aggregateCell_cluster zoomLevel kv.2 c hmem
    have hpos : 0 < kv.2.length := List.length_pos.mpr hb
    have hne1 : kv.2.length ≠ 1 := h.2.2.2.2.2.2.2.1
    have hsize : c.clusterSize = kv.2.length := h.2.2.2.2.2.1
    omega

/-- Witness for C4 at a 1-point cell and at the four-point example. -/
theorem threshold_respect_witness :
    aggregateCell 7 [q1] = [RenderItem.individual q1] ∧
      (fourOut.clusterSize = fourPoints.length ∧ 2 ≤ fourPoints.length) ∧
      2 ≤ fourOut.clusterSize :=
  ⟨threshold_respect.1 7 q1,
    threshold_respect.2.1 5 fourPoints fourOut (by simp [fourPoints])
      (by rw [aggregateCell_fourPoints]; exact List.mem_singleton_self _),
    threshold_respect.2.2 fourPoints 5 fourOut
      (by rw [clusterNearbyMarkers_fourPoints]; exact List.mem_singleton_self _)⟩

/-- C5: every emitted Cluster item carries the unweighted arithmetic mean
of the coordinates of its members as lat and lng, and the unweighted mean
with 0 substituted for missing values as reflectivity, rainfall_rate and
altitude; concretely, the 3-point scenario cell with rainfall rates 1, 2,
3 and one of three reflectivities missing yields at zoom 5 a Cluster with
rainfall_rate 2 and reflectivity (7 + 8 + 0) / 3. -/
theorem cluster_statistics :
    (∀ (zoomLevel : ℤ) (bucket : List Location) (c : ClusterOut),
      RenderItem.cluster c ∈ aggregateCell zoomLevel bucket →
      c.lat = (bucket.map Location.lat).sum / bucket.length ∧
      c.lng = (bucket.map Location.lng).sum / bucket.length ∧
      c.reflectivity = (bucket.map fun p => optOrZero p.reflectivity).sum / bucket.length ∧
      c.rainfall_rate = (bucket.map fun p => optOrZero p.rainfall_rate).sum / bucket.length ∧
      c.altitude = (bucket.map fun p => optOrZero p.altitude).sum / bucket.length) ∧
    (aggregateCell 5 scenarioCell = [RenderItem.cluster scenarioOut] ∧
      scenarioOut.rainfall_rate = 2 ∧ scenarioOut.reflectivity = (7 + 8 + 0) / 3) := by
  constructor
  · intro zoomLevel bucket c hc
    have h := mem_aggregateCell_cluster zoomLevel bucket c hc
    exact ⟨h.1, h.2.1, h.2.2.1, h.2.2.2.1, h.2.2.2.2.1⟩
  · refine ⟨aggregateCell_scenarioCell, ?_, ?_⟩ <;> norm_num [scenarioOut]

/-- Witness for C5 at the scenario cell. -/
theorem cluster_statistics_witness :
    RenderItem.cluster scenarioOut ∈ aggregateCell 5 scenarioCell ∧
      scenarioOut.lat = (scenarioCell.map Location.lat).sum / scenarioCell.length :=
  ⟨by rw [aggregateCell_scenarioCell]; exact List.mem_singleton_self _,
    (cluster_statistics.1 5 scenarioCell scenarioOut
      (by rw [aggregateCell_scenarioCell]; exact List.mem_singleton_self _)).1⟩

/-- C6: with at most 100 candidate points the render layer skips clustering
and renders every input point individually, in input order; above 100 it
renders the output of the clustering pipeline. -/
theorem render_policy (locations : List Location) (mapZoom : ℤ) :
    (locations.length ≤ 100 →
      locationsToRender locations mapZoom = locations.map RenderItem.individual) ∧
    (100 < locations.length →
      locationsToRender locations mapZoom = clusterNearbyMarkers locations mapZoom) := by
  constructor
  · intro h
    have hnot : ¬(shouldUseCluster locations ∧ 100 < locations.length) := by
      simp only [shouldUseCluster, gt_iff_lt, decide_eq_true_eq, not_and]
      omega
    simp only [locationsToRender, if_neg hnot]
  · intro h
    have hyes : shouldUseCluster locations ∧ 100 < locations.length := by
      simp only [shouldUseCluster, gt_iff_lt, decide_eq_true_eq]
      omega
    simp only [locationsToRender, if_pos hyes]

/-- Witness for C6: five points render as five Individual items, and 101
points go through the clustering pipeline. -/
theorem render_policy_witness :
    locationsToRender fivePoints 8 = fivePoints.map RenderItem.individual ∧
      locationsToRender manyPoints 5 = clusterNearbyMarkers manyPoints 5 :=
  ⟨(render_policy fivePoints 8).1 (by simp [fivePoints]),
    (render_policy manyPoints 5).2 (by rw [manyPoints_length]; norm_num)⟩

/-- C7: on the empty point list the clustering function returns the empty
render list for every zoom level, and the partition itself is empty — not
an error. -/
theorem empty_input (zoomLevel : ℤ) :
    clusterNearbyMarkers [] zoomLevel = [] ∧
      buildClusters (gridSizeOf [] zoomLevel) [] = [] :=
  ⟨rfl, rfl⟩

/-- C8: two calls of the clustering function with identical point lists and
zoom levels produce identical outputs — the function is a pure function of
its arguments. -/
theorem determinism (locationsA locationsB : List Location) (zoomA zoomB : ℤ)
    (hl : locationsA = locationsB) (hz : zoomA = zoomB) :
    clusterNearbyMarkers locationsA zoomA = clusterNearbyMarkers locationsB zoomB := by
  rw [hl, hz]

/-- Witness for C8 at a concrete repeated call. -/
theorem determinism_witness :
    clusterNearbyMarkers twoPoints 8 = clusterNearbyMarkers twoPoints 8 :=
  determinism twoPoints twoPoints 8 8 rfl rfl

/-- C9: the retained member list of every emitted Cluster item is exactly
the bucket of its cell, unmodified, and every retained member is one of
the original input points. -/
theorem member_list_preservation :
    (∀ (zoomLevel : ℤ) (bucket : List Location) (c : ClusterOut),
      RenderItem.cluster c ∈ aggregateCell zoomLevel bucket →
      c.clusterPoints = bucket) ∧
    (∀ (locations : List Location) (zoomLevel : ℤ) (c : ClusterOut),
      RenderItem.cluster c ∈ clusterNearbyMarkers locations zoomLevel →
      ∀ p ∈ c.clusterPoints, p ∈ locations) := by
  constructor
  · intro zoomLevel bucket c hc
    exact (mem_aggregateCell_cluster zoomLevel bucket c hc).2.2.2.2.2.2.1
  · intro locations zoomLevel c hc p hp
    obtain ⟨kv, hkv, hmem⟩ := mem_clusterNearbyMarkers_elim locations zoomLevel _ hc
    have hcp := (mem_aggregateCell_cluster zoomLevel kv.2 c hmem).2.2.2.2.2.2.1
    rw [hcp] at hp
    exact mem_bucket_mem_locations _ locations kv hkv p hp

/-- Witness for C9 at the four-point example. -/
theorem member_list_preservation_witness :
    fourOut.clusterPoints = fourPoints ∧ q1 ∈ fourPoints :=
  ⟨member_list_preservation.1 5 fourPoints fourOut
      (by rw [aggregateCell_fourPoints]; exact List.mem_singleton_self _),
    member_list_preservation.2 fourPoints 5 fourOut
      (by rw [clusterNearbyMarkers_fourPoints]; exact List.mem_singleton_self _)
      q1 (by simp [fourOut, fourPoints])⟩

/-- C10: the output of the clustering function is never longer than the
input list, and it is strictly shorter exactly when at least one Cluster
item is emitted. -/
theorem output_size_bound (locations : List Location) (zoomLevel : ℤ) :
    (clusterNearbyMarkers locations zoomLevel).length ≤ locations.length ∧
      ((clusterNearbyMarkers locations zoomLevel).length < locations.length ↔
        ∃ c, RenderItem.cluster c ∈ clusterNearbyMarkers locations zoomLevel) := by
  have hne := buildClusters_ne_nil (gridSizeOf locations zoomLevel) locations
  have h := flatten_aggregate_length zoomLevel
    (buildClusters (gridSizeOf locations zoomLevel) locations) hne
  have hlen := (flattenBuckets_buildClusters (gridSizeOf locations zoomLevel)
    locations).length_eq
  simp only [clusterNearbyMarkers]
  rw [← hlen]
  exact h

end Vrishti
